import Mathlib

/-!
Verification development for the invoice-comparison matching engine.

The definitions below are a shallow embedding of the Python sources in
src/invoice_comparison (matching/similarity_scorer.py, matching/product_matcher.py,
matching/fuzzy_matcher.py, database/operations.py, database/schema.py).
Floating point scores are modelled as rationals, SQLAlchemy tables as Lean lists,
and the rapidfuzz similarity ratios by their mathematical definition
(normalized indel similarity, i.e. 100 * 2 * LCS / (len1 + len2)).
Characters are treated at the ASCII level (the regular expressions in the source
use \w, \s and lower-casing, which agree with the ASCII model on ASCII input).
-/

/-! ## Text utilities (similarity_scorer.normalize_text and helpers) -/

/-- Python ASCII whitespace class, the characters matched by the regex \s. -/
def isSpaceChar (c : Char) : Bool :=
  [32, 9, 10, 13, 11, 12].contains c.toNat

/-- Word characters as in the regex class \w (ASCII fragment). -/
def isWordChar (c : Char) : Bool :=
  c.isAlphanum || c = '_'

/-- ASCII upper-case letter test. -/
def isAsciiUpper (c : Char) : Bool :=
  decide (65 ≤ c.toNat ∧ c.toNat ≤ 90)

/-- Models str.lower on one character (ASCII range, as in the source data). -/
def lowerChar (c : Char) : Char :=
  if 65 ≤ c.toNat ∧ c.toNat ≤ 90 then Char.ofNat (c.toNat + 32) else c

/-- Models str.strip: removes leading and trailing whitespace. -/
def stripL (l : List Char) : List Char :=
  ((l.dropWhile isSpaceChar).reverse.dropWhile isSpaceChar).reverse

/-- One step of re.sub applied to a single character: a character that is not a
word character, whitespace or a period is replaced by a space. -/
def keepOrSpace (c : Char) : Char :=
  if isWordChar c || isSpaceChar c || c = '.' then c else ' '

/-- Models re.sub collapsing every whitespace run into a single space.
The flag records whether the previous kept character was whitespace. -/
def collapseAux : Bool → List Char → List Char
  | _, [] => []
  | prevSpace, c :: cs =>
    if isSpaceChar c then
      if prevSpace then collapseAux true cs
      else ' ' :: collapseAux true cs
    else c :: collapseAux false cs

/-- SimilarityScorer.normalize_text on a character list: lower-case, strip,
replace disallowed punctuation by spaces, collapse whitespace runs. -/
def normalizeTextL (l : List Char) : List Char :=
  collapseAux false ((stripL (l.map lowerChar)).map keepOrSpace)

/-- SimilarityScorer.normalize_text. -/
def normalize_text (s : String) : String :=
  String.mk (normalizeTextL s.data)

/-- Character allowed in normalizer output: word character, space or period. -/
def allowedChar (c : Char) : Bool :=
  isWordChar c || c = ' ' || c = '.'

/-- Detects two adjacent spaces, the shape ruled out by whitespace collapsing. -/
def hasDoubleSpace : List Char → Bool
  | a :: b :: t => (a = ' ' && b = ' ') || hasDoubleSpace (b :: t)
  | _ => false

/-! ## rapidfuzz similarity ratios, modelled via the longest common subsequence -/

/-- Longest common subsequence length, inner recursion on the second list. -/
def lcsAux (x : Char) (fxs : List Char → Nat) : List Char → Nat
  | [] => 0
  | y :: ys =>
    if x = y then fxs ys + 1
    else max (lcsAux x fxs ys) (fxs (y :: ys))

/-- Longest common subsequence length of two character lists. -/
def lcsLen : List Char → List Char → Nat
  | [] => fun _ => 0
  | x :: xs => lcsAux x (lcsLen xs)

/-- rapidfuzz fuzz.ratio: normalized indel similarity in [0,100].
The indel distance of a and b is len a + len b - 2 * lcs a b, so the
normalized similarity is 100 * 2 * lcs / (len a + len b); two empty
strings are defined to be 100 similar. -/
def indelRatio (a b : List Char) : ℚ :=
  if a.length + b.length = 0 then 100
  else 100 * (2 * lcsLen a b) / ((a.length : ℚ) + (b.length : ℚ))

/-- fuzz.ratio on strings. -/
def fuzzRatio (a b : String) : ℚ :=
  indelRatio a.data b.data

/-- Whitespace splitting as Python str.split with no arguments: splits on
whitespace runs and drops empty tokens. The accumulator holds the current
token reversed. -/
def splitWsAux : List Char → List Char → List (List Char)
  | [], acc => if acc.isEmpty then [] else [acc.reverse]
  | c :: cs, acc =>
    if isSpaceChar c then
      if acc.isEmpty then splitWsAux cs [] else acc.reverse :: splitWsAux cs []
    else splitWsAux cs (c :: acc)

/-- Python str.split() on a character list. -/
def splitWs (l : List Char) : List (List Char) :=
  splitWsAux l []

/-- Lexicographic comparison of character lists by code point, as Python
string comparison used by sorted(). -/
def lexLe : List Char → List Char → Bool
  | [], _ => true
  | _ :: _, [] => false
  | x :: xs, y :: ys => if x = y then lexLe xs ys else decide (x < y)

/-- Insert a token into a lexicographically sorted token list. -/
def insertTok (t : List Char) : List (List Char) → List (List Char)
  | [] => [t]
  | u :: us => if lexLe t u then t :: u :: us else u :: insertTok t us

/-- Stable insertion sort of tokens, as Python sorted(). -/
def sortToks : List (List Char) → List (List Char)
  | [] => []
  | t :: ts => insertTok t (sortToks ts)

/-- rapidfuzz fuzz.token_sort_ratio: sort the whitespace tokens of both
strings, rejoin with single spaces, and take the indel ratio. -/
def token_sort_ratio (a b : String) : ℚ :=
  indelRatio (List.intercalate [' '] (sortToks (splitWs a.data)))
    (List.intercalate [' '] (sortToks (splitWs b.data)))

/-! ## Similarity scorer (similarity_scorer.py) -/

/-- Transient product descriptor: the four fields read by the scorer.
Callers build it from a dict with .get(key, ''), so absent fields are
empty strings. -/
structure ProdDesc where
  product_name : String := ""
  brand : String := ""
  format : String := ""
  packaging : String := ""
deriving Repr, DecidableEq

/-- Container for similarity scores. -/
structure SimilarityScore where
  total_score : ℚ
  brand_score : ℚ
  product_type_score : ℚ
  format_score : ℚ
  packaging_score : ℚ
deriving Repr, DecidableEq

/-- SimilarityScorer.BRAND_SYNONYMS, in insertion order. -/
def BRAND_SYNONYMS : List (String × List String) :=
  [("olimel", ["olymel"]),
   ("maple leaf", ["maple", "mapleleaf"]),
   ("coca cola", ["coca-cola", "coke"]),
   ("pepsi", ["pepsi-cola"])]

/-- The synonym-table scan of SimilarityScorer.compare_brands: any row whose
synonym list and canonical name cover the two normalized brands. -/
def synonymHit (b1 b2 : String) : Bool :=
  BRAND_SYNONYMS.any fun cs =>
    (cs.2.contains b1 && b2 == cs.1) ||
    (cs.2.contains b2 && b1 == cs.1) ||
    (cs.2.contains b1 && cs.2.contains b2)

/-- SimilarityScorer.compare_brands. -/
def compare_brands (brand1 brand2 : String) : ℚ :=
  let b1 := normalize_text brand1
  let b2 := normalize_text brand2
  if b1 = "" ∧ b2 = "" then 50
  else if b1 = "" ∨ b2 = "" then 0
  else if b1 = b2 then 100
  else if synonymHit b1 b2 then 95
  else fuzzRatio b1 b2

/-- Stop-list of descriptors skipped by extract_product_type. -/
def TYPE_STOPLIST : List (List Char) :=
  ["bio".data, "organic".data, "naturel".data, "nature".data, "original".data, "orig".data]

/-- Word filter of SimilarityScorer.extract_product_type: keep words that do
not start with a digit, are longer than 2 characters and are not common
descriptors. -/
def keepTypeWord (w : List Char) : Bool :=
  !(w.headD ' ' |>.isDigit) && decide (2 < w.length) && !(TYPE_STOPLIST.contains w)

/-- SimilarityScorer.extract_product_type: first three remaining words of the
normalized name. -/
def extract_product_type (product_name : String) : String :=
  let words := splitWs (normalizeTextL product_name.data)
  String.mk (List.intercalate [' '] ((words.filter keepTypeWord).take 3))

/-! ### Format unit extraction (SimilarityScorer.FORMAT_PATTERNS)

Each regex has the shape
`(\d+(\.\d+)?) \s* (x \s*)? (\d+(\.\d+)?)? \s* (alt1|alt2|...)`
(the units pattern allows only integers). The alternatives start with letters
and the numbers with digits, so the greedy left-to-right match below agrees
with the Python regex engine on these patterns; re.search tries every start
position from the left. -/

/-- Value of a digit list read in base 10. -/
def natOfDigits (ds : List Char) : Nat :=
  ds.foldl (fun acc c => acc * 10 + (c.toNat - 48)) 0

/-- Parses a leading number `\d+(\.\d+)?` (just `\d+` when allowFrac is
false) and returns its rational value and the rest of the input. -/
def parseNumber (allowFrac : Bool) (l : List Char) : Option (ℚ × List Char) :=
  let ds := l.takeWhile Char.isDigit
  if ds.isEmpty then none
  else
    let rest := l.dropWhile Char.isDigit
    let intPart : ℚ := natOfDigits ds
    if allowFrac then
      match rest with
      | '.' :: r2 =>
        let fs := r2.takeWhile Char.isDigit
        if fs.isEmpty then some (intPart, rest)
        else some (intPart + (natOfDigits fs : ℚ) / ((10 : ℚ) ^ fs.length),
                   r2.dropWhile Char.isDigit)
      | _ => some (intPart, rest)
    else some (intPart, rest)

/-- True when one of the unit spellings (tried in the regex alternation
order) starts at this position. -/
def matchUnit (alts : List String) (l : List Char) : Bool :=
  alts.any fun a => a.data.isPrefixOf l

/-- Matches one format pattern at the start of the input, returning the two
regex capture groups (count and optional size). -/
def matchPattern (allowFrac : Bool) (alts : List String) (l : List Char) :
    Option (ℚ × Option ℚ) :=
  match parseNumber allowFrac l with
  | none => none
  | some (n1, r1) =>
    let r2 := r1.dropWhile isSpaceChar
    let r3 := match r2 with
      | 'x' :: t => t.dropWhile isSpaceChar
      | _ => r2
    match parseNumber allowFrac r3 with
    | some (n2, r4) =>
      if matchUnit alts (r4.dropWhile isSpaceChar) then some (n1, some n2) else none
    | none =>
      if matchUnit alts (r3.dropWhile isSpaceChar) then some (n1, none) else none

/-- re.search for one format pattern: leftmost matching start position. -/
def searchPattern (allowFrac : Bool) (alts : List String) : List Char → Option (ℚ × Option ℚ)
  | [] => none
  | c :: rest =>
    match matchPattern allowFrac alts (c :: rest) with
    | some r => some r
    | none => searchPattern allowFrac alts rest

/-- Count/size view of the capture groups: with both groups `4 x 2 kg` gives
count 4 and size 2, with one group `2 kg` gives count 1 and size 2. -/
def countSize : ℚ × Option ℚ → ℚ × ℚ
  | (a, some b) => (a, b)
  | (a, none) => (1, a)

/-- SimilarityScorer.extract_format: returns the canonical magnitude in grams
and the unit class, or (0, "unknown") when no pattern matches. Patterns are
tried in the fixed dict order kg, g, l, ml, units. -/
def extract_format (format_field : String) (product_name : String) : ℚ × String :=
  let text := normalizeTextL ((format_field ++ " " ++ product_name)).data
  match searchPattern true ["kg", "kilo", "kilogram"] text with
  | some g => ((countSize g).1 * (countSize g).2 * 1000, "kg")
  | none =>
  match searchPattern true ["g", "gram"] text with
  | some g => ((countSize g).1 * (countSize g).2, "g")
  | none =>
  match searchPattern true ["l", "liter", "litre"] text with
  | some g => ((countSize g).1 * (countSize g).2 * 1000, "l")
  | none =>
  match searchPattern true ["ml", "milliliter"] text with
  | some g => ((countSize g).1 * (countSize g).2, "ml")
  | none =>
  match searchPattern false ["un", "unit", "piece", "pce"] text with
  | some g =>
    ((countSize g).1 * (if (countSize g).2 = 0 then 1 else (countSize g).2), "units")
  | none => (0, "unknown")

/-- SimilarityScorer.compare_formats. -/
def compare_formats (format1 format2 : String) (name1 name2 : String) : ℚ :=
  let q1 := (extract_format format1 name1).1
  let u1 := (extract_format format1 name1).2
  let q2 := (extract_format format2 name2).1
  let u2 := (extract_format format2 name2).2
  if q1 = 0 ∨ q2 = 0 then
    let norm1 := normalize_text format1
    let norm2 := normalize_text format2
    if norm1 = "" ∧ norm2 = "" then 50
    else fuzzRatio norm1 norm2
  else
    let diffPercent := |q1 - q2| / max q1 q2 * 100
    let similarity := max 0 (100 - diffPercent)
    if u1 = u2 then min 100 (similarity * (11 / 10)) else similarity

/-- Closed set of packaging keywords scanned by extract_packaging, in source
order. -/
def PACKAGING_TYPES : List String :=
  ["box", "boite", "case", "caisse", "bag", "sac", "bottle", "bouteille",
   "can", "canne", "jar", "pot", "tray", "plateau"]

/-- SimilarityScorer.extract_packaging: first keyword occurring as a
substring of the normalized packaging field plus product name. -/
def extract_packaging (packaging_field : String) (product_name : String) : String :=
  let text := normalizeTextL ((packaging_field ++ " " ++ product_name)).data
  match PACKAGING_TYPES.find? (fun p => decide (p.data <:+: text)) with
  | some p => p
  | none => "unknown"

/-- SimilarityScorer.calculate_similarity: the weighted similarity of two
product descriptors. Weights: brand 0.25, product type 0.40, format 0.25,
packaging 0.10. -/
def calculate_similarity (p1 p2 : ProdDesc) : SimilarityScore :=
  let brand_score := compare_brands p1.brand p2.brand
  let type1 := extract_product_type p1.product_name
  let type2 := extract_product_type p2.product_name
  let product_type_score :=
    if type1 = "" ∧ type2 = "" then 50 else token_sort_ratio type1 type2
  let format_score := compare_formats p1.format p2.format p1.product_name p2.product_name
  let pkg1 := extract_packaging p1.packaging p1.product_name
  let pkg2 := extract_packaging p2.packaging p2.product_name
  let packaging_score :=
    if pkg1 = "unknown" ∧ pkg2 = "unknown" then 50
    else if pkg1 = pkg2 then 100
    else fuzzRatio pkg1 pkg2
  { total_score := brand_score * (1 / 4) + product_type_score * (2 / 5) +
      format_score * (1 / 4) + packaging_score * (1 / 10),
    brand_score := brand_score,
    product_type_score := product_type_score,
    format_score := format_score,
    packaging_score := packaging_score }

/-! ## Data model (database/schema.py) -/

/-- Row of the products table (fields used by the engine). -/
structure Product where
  id : Nat
  gtin : String
  product_name : String
  brand : Option String := none
  format : Option String := none
  packaging : Option String := none
  category : Option String := none
deriving Repr, DecidableEq

/-- Row of the suppliers table. -/
structure Supplier where
  id : Nat
  code : String
deriving Repr, DecidableEq

/-- Row of the supplier_codes table: mapping between a supplier-specific
code and a product, with price and active flag. -/
structure SupplierCode where
  supplier_id : Nat
  product_id : Nat
  supplier_code : String
  price : Option ℚ := none
  active : Bool := true
deriving Repr, DecidableEq

/-- Row of the user_corrections table (fields used by the engine). -/
structure UserCorrection where
  original_supplier_id : Nat
  original_supplier_code : String
  matched_product_id : Nat
  target_supplier_id : Nat
  target_supplier_code : String
  user_confirmed : Bool := true
deriving Repr, DecidableEq

/-- Row of the matching_cache table. Timestamps are modelled as natural
numbers. -/
structure MatchingCache where
  search_text : String
  search_hash : String
  matched_product_id : Nat
  similarity_score : ℚ
  match_method : String
  hit_count : Nat := 1
  last_used : Nat := 0
  created_at : Nat := 0
deriving Repr, DecidableEq

/-- The SQLite database state: one list per table. Queries iterate rows in
list order (.first() takes the first matching row). -/
structure Db where
  suppliers : List Supplier
  products : List Product
  supplier_codes : List SupplierCode
  corrections : List UserCorrection
  cache : List MatchingCache
deriving Repr, DecidableEq

/-- Repository operations performed against the database, recorded as a
trace so that call order (read cache, scan, write cache) is observable. -/
inductive RepoOp where
  | gtinLookup
  | correctionsLookup
  | cacheRead
  | scanProducts
  | cacheWrite
deriving Repr, DecidableEq

/-! ## Database operations (database/operations.py) -/

/-- DatabaseOperations.find_product_by_supplier_code: resolves a
supplier-specific code to the product carrying it (active mappings only).
Returns the product together with the mapping row. -/
def find_product_by_supplier_code (db : Db) (supplier_code : String) (supplier : String) :
    Option (Product × SupplierCode) :=
  match db.suppliers.find? (fun s => s.code = supplier) with
  | none => none
  | some supplier_obj =>
    match db.supplier_codes.find? (fun m =>
        m.supplier_id = supplier_obj.id ∧ m.supplier_code = supplier_code ∧ m.active) with
    | none => none
    | some mapping =>
      (db.products.find? (fun p => p.id = mapping.product_id)).map fun p => (p, mapping)

/-- DatabaseOperations.get_supplier_code_for_product: the active listing of
a product at a supplier. -/
def get_supplier_code_for_product (db : Db) (product_id : Nat) (supplier : String) :
    Option SupplierCode :=
  match db.suppliers.find? (fun s => s.code = supplier) with
  | none => none
  | some supplier_obj =>
    db.supplier_codes.find? (fun m =>
      m.product_id = product_id ∧ m.supplier_id = supplier_obj.id ∧ m.active)

/-- DatabaseOperations.get_user_corrections: every confirmed correction
recorded for (supplier_code, supplier). -/
def get_user_corrections (db : Db) (supplier_code : String) (supplier : String) :
    List UserCorrection :=
  match db.suppliers.find? (fun s => s.code = supplier) with
  | none => []
  | some supplier_obj =>
    db.corrections.filter fun c =>
      c.original_supplier_id = supplier_obj.id ∧
      c.original_supplier_code = supplier_code ∧ c.user_confirmed

/-- Stands for hashlib.md5(search_text.lower()).hexdigest(): the cache key
is a function of the lower-cased search text (the digest itself adds
nothing observable to the model). -/
def searchHash (s : String) : String :=
  String.mk (s.data.map lowerChar)

/-- DatabaseOperations.get_cached_match: looks up the cache row for the
hashed search text, then validates that the referenced product still
exists; a stale reference is treated as a miss. -/
def get_cached_match (db : Db) (search_text : String) : Option (Product × ℚ) :=
  match db.cache.find? (fun e => e.search_hash = searchHash search_text) with
  | none => none
  | some cache_row =>
    (db.products.find? (fun p => p.id = cache_row.matched_product_id)).map
      fun p => (p, cache_row.similarity_score)

/-- Bump applied by cache_match to an existing row: hit count and last-used
timestamp only. -/
def bumpEntry (now : Nat) (e : MatchingCache) : MatchingCache :=
  { e with hit_count := e.hit_count + 1, last_used := now }

/-- Insert-or-update step of DatabaseOperations.cache_match on the cache
table: the first row with the given hash is bumped, otherwise a new row is
appended with the schema defaults (hit_count 1, timestamps now). -/
def cacheUpsert (h text : String) (product_id : Nat) (score : ℚ) (method : String)
    (now : Nat) : List MatchingCache → List MatchingCache
  | [] => [{ search_text := text, search_hash := h, matched_product_id := product_id,
             similarity_score := score, match_method := method, hit_count := 1,
             last_used := now, created_at := now }]
  | e :: rest =>
    if e.search_hash = h then bumpEntry now e :: rest
    else e :: cacheUpsert h text product_id score method now rest

/-- DatabaseOperations.cache_match. -/
def cache_match (db : Db) (search_text : String) (product_id : Nat) (score : ℚ)
    (method : String) (now : Nat) : Db :=
  { db with cache :=
      cacheUpsert (searchHash search_text) search_text product_id score method now db.cache }

/-! ## Product matcher (matching/product_matcher.py) -/

/-- product_matcher.MatchResult: container for a single match result.
match_type is one of "gtin", "fuzzy", "user_correction". -/
structure MatchResult where
  product : Product
  similarity_score : ℚ
  match_type : String
  supplier_code : Option String := none
  price : Option ℚ := none
  brand_score : ℚ := 0
  product_type_score : ℚ := 0
  format_score : ℚ := 0
  packaging_score : ℚ := 0
deriving Repr, DecidableEq

/-- Query descriptor passed to ProductMatcher.find_matches: the scorer
fields plus the optional source supplier code. -/
structure QueryInfo where
  supplier_code : Option String := none
  product_name : String := ""
  brand : String := ""
  format : String := ""
  packaging : String := ""
deriving Repr, DecidableEq

/-- The search dict built from product_info with .get(key, ''). -/
def descOfQuery (q : QueryInfo) : ProdDesc :=
  { product_name := q.product_name, brand := q.brand,
    format := q.format, packaging := q.packaging }

/-- The target dict built from a product row with `or ''` on nullable
fields. -/
def descOfProduct (p : Product) : ProdDesc :=
  { product_name := p.product_name, brand := p.brand.getD "",
    format := p.format.getD "", packaging := p.packaging.getD "" }

/-- ProductMatcher._try_gtin_match: resolve the code at the source supplier,
then require an active listing at the target supplier; on success the
candidate has score 100 exactly and kind "gtin". -/
def tryGtinMatch (db : Db) (supplier_code source_supplier target_supplier : String) :
    Option MatchResult :=
  match find_product_by_supplier_code db supplier_code source_supplier with
  | none => none
  | some (product, _) =>
    match get_supplier_code_for_product db product.id target_supplier with
    | none => none
    | some target_mapping =>
      some { product := product, similarity_score := 100, match_type := "gtin",
             supplier_code := some target_mapping.supplier_code,
             price := target_mapping.price }

/-- ProductMatcher._try_user_corrections: each confirmed correction whose
product still exists and has an active listing at the target supplier
becomes a candidate with fixed score 95 and kind "user_correction". -/
def tryUserCorrections (db : Db) (supplier_code source_supplier target_supplier : String) :
    List MatchResult :=
  (get_user_corrections db supplier_code source_supplier).filterMap fun correction =>
    match db.products.find? (fun p => p.id = correction.matched_product_id) with
    | none => none
    | some product =>
      match get_supplier_code_for_product db product.id target_supplier with
      | none => none
      | some target_mapping =>
        some { product := product, similarity_score := 95,
               match_type := "user_correction",
               supplier_code := some target_mapping.supplier_code,
               price := target_mapping.price }

/-- Descending comparison on similarity scores used by the Python stable
sorts (sort(key=..., reverse=True)). -/
def scoreRel (a b : MatchResult) : Prop :=
  b.similarity_score ≤ a.similarity_score

instance : DecidableRel scoreRel :=
  fun a b => inferInstanceAs (Decidable (b.similarity_score ≤ a.similarity_score))

instance : IsTotal MatchResult scoreRel :=
  ⟨fun a b => le_total b.similarity_score a.similarity_score⟩

instance : IsTrans MatchResult scoreRel :=
  ⟨fun _ _ _ h1 h2 => le_trans h2 h1⟩

/-- ProductMatcher._try_fuzzy_match with its repository trace: scan the
(Product, SupplierCode) join at the target supplier (limit 10000), score
each candidate, keep those at or above the threshold, sort by score
descending, truncate. The cache is never consulted on this path. -/
def tryFuzzyMatchT (db : Db) (q : QueryInfo) (target_supplier : String)
    (min_similarity : ℚ) (max_results : Nat) : List MatchResult × List RepoOp :=
  match db.suppliers.find? (fun s => s.code = target_supplier) with
  | none => ([], [RepoOp.scanProducts])
  | some supplier =>
    let pairs := (db.supplier_codes.filter fun m =>
      m.supplier_id = supplier.id ∧ m.active).take 10000
    let results := pairs.filterMap fun m =>
      match db.products.find? (fun p => p.id = m.product_id) with
      | none => none
      | some product =>
        let similarity := calculate_similarity (descOfQuery q) (descOfProduct product)
        if min_similarity ≤ similarity.total_score then
          some { product := product, similarity_score := similarity.total_score,
                 match_type := "fuzzy", supplier_code := some m.supplier_code,
                 price := m.price, brand_score := similarity.brand_score,
                 product_type_score := similarity.product_type_score,
                 format_score := similarity.format_score,
                 packaging_score := similarity.packaging_score }
        else none
    ((List.insertionSort scoreRel results).take max_results, [RepoOp.scanProducts])

/-- The duplicate-removal loop of find_matches: a seen-set of product ids,
first occurrence wins. -/
def dedupeById (seen : List Nat) : List MatchResult → List MatchResult
  | [] => []
  | r :: rs =>
    if r.product.id ∈ seen then dedupeById seen rs
    else r :: dedupeById (r.product.id :: seen) rs

/-- The merged candidate list of find_matches before deduplication:
user-correction candidates (when a source code is present) followed by
fuzzy candidates. -/
def mergedCandidates (db : Db) (q : QueryInfo) (source_supplier target_supplier : String)
    (min_similarity : ℚ) (max_results : Nat) : List MatchResult :=
  match q.supplier_code with
  | some code =>
    tryUserCorrections db code source_supplier target_supplier ++
      (tryFuzzyMatchT db q target_supplier min_similarity max_results).1
  | none => (tryFuzzyMatchT db q target_supplier min_similarity max_results).1

/-- Deduplicate by product id (first occurrence wins), then stable-sort by
score descending: the ranked list of find_matches before truncation. -/
def rankCandidates (l : List MatchResult) : List MatchResult :=
  List.insertionSort scoreRel (dedupeById [] l)

/-- ProductMatcher.find_matches with its repository trace. Strategy 1 (exact
code resolution) short-circuits; otherwise user corrections and the fuzzy
scan are merged, deduplicated, sorted and truncated to max_results. -/
def findMatchesT (db : Db) (q : QueryInfo) (source_supplier target_supplier : String)
    (min_similarity : ℚ) (max_results : Nat) : List MatchResult × List RepoOp :=
  match q.supplier_code with
  | some code =>
    match tryGtinMatch db code source_supplier target_supplier with
    | some m => ([m], [RepoOp.gtinLookup])
    | none =>
      ((rankCandidates (mergedCandidates db q source_supplier target_supplier
          min_similarity max_results)).take max_results,
       RepoOp.gtinLookup :: RepoOp.correctionsLookup ::
         (tryFuzzyMatchT db q target_supplier min_similarity max_results).2)
  | none =>
    ((rankCandidates (mergedCandidates db q source_supplier target_supplier
        min_similarity max_results)).take max_results,
     (tryFuzzyMatchT db q target_supplier min_similarity max_results).2)

/-- ProductMatcher.find_matches (results only). -/
def find_matches (db : Db) (q : QueryInfo) (source_supplier target_supplier : String)
    (min_similarity : ℚ) (max_results : Nat) : List MatchResult :=
  (findMatchesT db q source_supplier target_supplier min_similarity max_results).1

/-! ## Fuzzy matcher (matching/fuzzy_matcher.py) -/

/-- fuzzy_matcher.MatchResult: result of the standalone fuzzy search. -/
structure FMatchResult where
  product : Product
  similarity_score : ℚ
  detailed_scores : SimilarityScore
  supplier_code : Option String := none
  price : Option ℚ := none
deriving Repr, DecidableEq

/-- Descending score comparison for FMatchResult sorting. -/
def scoreRelF (a b : FMatchResult) : Prop :=
  b.similarity_score ≤ a.similarity_score

instance : DecidableRel scoreRelF :=
  fun a b => inferInstanceAs (Decidable (b.similarity_score ≤ a.similarity_score))

instance : IsTotal FMatchResult scoreRelF :=
  ⟨fun a b => le_total b.similarity_score a.similarity_score⟩

instance : IsTrans FMatchResult scoreRelF :=
  ⟨fun _ _ _ h1 h2 => le_trans h2 h1⟩

/-- The cache key text built by search_similar_products:
f"{product_name} {brand} {format}". -/
def searchText (q : ProdDesc) : String :=
  q.product_name ++ " " ++ q.brand ++ " " ++ q.format

/-- The candidate scan of FuzzyMatcher.search_similar_products: all products
(optionally filtered by category, and by an active listing at the target
supplier when one is given and exists), limit 100000, scored, thresholded,
sorted by score descending, truncated. This definition never reads the
cache. -/
def fuzzyScan (db : Db) (q : ProdDesc) (target_supplier : Option String)
    (min_similarity : ℚ) (max_results : Nat) (category : Option String) :
    List FMatchResult :=
  let base : List Product := match category with
    | none => db.products
    | some c => db.products.filter fun p => p.category = some c
  let pool : List Product := match target_supplier with
    | none => base
    | some t =>
      match db.suppliers.find? (fun s => s.code = t) with
      | none => base
      | some supplier =>
        base.filter fun p => db.supplier_codes.any fun m =>
          m.product_id = p.id && m.supplier_id = supplier.id && m.active
  let results := (pool.take 100000).filterMap fun p =>
    let similarity := calculate_similarity q (descOfProduct p)
    if min_similarity ≤ similarity.total_score then
      some { product := p, similarity_score := similarity.total_score,
             detailed_scores := similarity,
             supplier_code := match target_supplier with
               | none => none
               | some t =>
                 match get_supplier_code_for_product db p.id t with
                 | none => none
                 | some mapping => some mapping.supplier_code,
             price := match target_supplier with
               | none => none
               | some t =>
                 match get_supplier_code_for_product db p.id t with
                 | none => none
                 | some mapping => mapping.price }
    else none
  (List.insertionSort scoreRelF results).take max_results

/-- FuzzyMatcher.search_similar_products with resulting database state and
repository trace. The cache is read first on every call; the cached result
is used only when no target supplier is given and the referenced product
still exists. On the scan path, the best result is cached when its score is
at least 85 and no target supplier was given. -/
def searchSimilarProductsT (db : Db) (q : ProdDesc) (target_supplier : Option String)
    (min_similarity : ℚ) (max_results : Nat) (category : Option String) (now : Nat) :
    List FMatchResult × Db × List RepoOp :=
  match target_supplier, get_cached_match db (searchText q) with
  | none, some (product, score) =>
    ([{ product := product, similarity_score := score,
        detailed_scores := calculate_similarity q (descOfProduct product) }],
     db, [RepoOp.cacheRead])
  | target, _ =>
    let results := fuzzyScan db q target min_similarity max_results category
    match target with
    | some _ => (results, db, [RepoOp.cacheRead, RepoOp.scanProducts])
    | none =>
      match results.head? with
      | none => (results, db, [RepoOp.cacheRead, RepoOp.scanProducts])
      | some best =>
        if 85 ≤ best.similarity_score then
          (results,
           cache_match db (searchText q) best.product.id best.similarity_score
             "fuzzy_name" now,
           [RepoOp.cacheRead, RepoOp.scanProducts, RepoOp.cacheWrite])
        else (results, db, [RepoOp.cacheRead, RepoOp.scanProducts])

/-- Product 1 at the target supplier, descriptor-identical to the query. -/
def pW : Product := ⟨1, "0001", "abc", some "b", some "2 kg", some "box", none⟩

/-- A second product with the same descriptors but its own identity. -/
def p2C9 : Product := ⟨2, "0002", "abc", some "b", some "2 kg", some "box", none⟩

/-- Database for the C9 counterexample: both products listed at target "t",
a confirmed user correction mapping source code "c1" to product 2, and no
source-supplier listing for "c1" (so exact resolution fails). -/
def dbC9 : Db :=
  ⟨[⟨1, "s"⟩, ⟨2, "t"⟩], [pW, p2C9],
   [⟨2, 1, "t1", none, true⟩, ⟨2, 2, "t2", none, true⟩],
   [⟨1, "c1", 2, 2, "t2", true⟩], []⟩

/-- The C9 query: carries source code "c1" and matches both products with
similarity 100. -/
def qiC9 : QueryInfo := ⟨some "c1", "abc", "b", "2 kg", "box"⟩

/-- The fuzzy candidate for product 1 with full marks. -/
def fz1C9 : MatchResult := ⟨pW, 100, "fuzzy", some "t1", none, 100, 100, 100, 100⟩

/-- The user-correction candidate for product 2. -/
def corrC9 : MatchResult := ⟨p2C9, 95, "user_correction", some "t2", none, 0, 0, 0, 0⟩

/-! ## Concrete data and witness for C1 -/

/-- Database for the C1 witness: code "c" resolves to product 1 at source
"s", and product 1 has an active listing "tc" at target "t". -/
def dbC1w : Db :=
  ⟨[⟨1, "s"⟩, ⟨2, "t"⟩], [pW],
   [⟨1, 1, "c", none, true⟩, ⟨2, 1, "tc", none, true⟩], [], []⟩

/-- The C1 witness query carries code "c". -/
def qC1w : QueryInfo := ⟨some "c", "", "", "", ""⟩

/-- Expected exact-match candidate. -/
def mC1w : MatchResult := ⟨pW, 100, "gtin", some "tc", none, 0, 0, 0, 0⟩

/-! ## Concrete data and witness for C3 -/

/-- The C3 witness query carries a code that resolves nowhere, so the exact
strategy yields nothing and the merged path runs. -/
def qC3w : QueryInfo := ⟨some "zz", "abc", "b", "2 kg", "box"⟩

/-! ## Concrete data, witness and counterexample for C4 -/

/-- Database for C4: one product, listed at target "t", and a cache entry
matching the query text "abc b 2 kg" (hash of the lowered text). -/
def dbC4w : Db :=
  ⟨[⟨1, "t"⟩], [pW], [⟨1, 1, "tc", none, true⟩], [],
   [⟨"abc b 2 kg", "abc b 2 kg", 1, 90, "fuzzy_name", 1, 0, 0⟩]⟩

/-- Query descriptor whose search text is "abc b 2 kg". -/
def qC4w : ProdDesc := ⟨"abc", "b", "2 kg", "box"⟩

/-- The orchestrator-side query for the C4 trace counterexample. -/
def qi2C4 : QueryInfo := ⟨none, "abc", "b", "2 kg", "box"⟩

/-! ## Concrete data, counterexample and witness for C5 -/

/-- Database for the C5 counterexample: the cached entry for the query text
stores score 85 and points at an existing product. -/
def dbC5x : Db :=
  ⟨[], [pW], [], [],
   [⟨"abc b 2 kg", "abc b 2 kg", 1, 85, "fuzzy_name", 1, 0, 0⟩]⟩

/-- Query for the C5 counterexample, searched with threshold 90. -/
def qC5x : ProdDesc := ⟨"abc", "b", "2 kg", "box"⟩

/-- Database for the C5 witness: one product at target "t", empty cache. -/
def dbC5w : Db :=
  ⟨[⟨1, "t"⟩], [pW], [⟨1, 1, "tc", none, true⟩], [], []⟩

/-- The scan result for the C5 witness: full-marks candidate with the
target listing attached. -/
def xC5w : FMatchResult := ⟨pW, 100, ⟨100, 100, 100, 100, 100⟩, some "tc", none⟩

/-! ## Concrete data and witness for C6 -/

/-- Cache entry referencing product id 99, which does not exist. -/
def eC6w : MatchingCache := ⟨"abc b 2 kg", "abc b 2 kg", 99, 90, "fuzzy_name", 1, 0, 0⟩

/-- Database for the C6 witness: a stale cache entry and no products. -/
def dbC6w : Db := ⟨[], [], [], [], [eC6w]⟩

/-! ## Concrete data and witness for C10 -/

/-- An unrelated cache row ahead of the hit. -/
def e1C10 : MatchingCache := ⟨"aa", "aa", 1, 50, "fuzzy_name", 1, 0, 0⟩

/-- The cache row for the query "milk": product 7, score 85, hit count 3. -/
def e2C10 : MatchingCache := ⟨"milk", "milk", 7, 85, "fuzzy_name", 3, 5, 2⟩

/-- Database for the C10 witness. -/
def dbC10w : Db := ⟨[], [], [], [], [e1C10, e2C10]⟩

/-! ## Theorems -/

/-! ## Bounds for the ratio model -/

theorem lcsLen_le (a : List Char) : ∀ b : List Char,
    lcsLen a b ≤ a.length ∧ lcsLen a b ≤ b.length := by
  induction a with
  | nil => intro b; simp [lcsLen]
  | cons x xs ih =>
    intro b
    induction b with
    | nil => simp [lcsLen, lcsAux]
    | cons y ys ihb =>
      by_cases h : x = y
      · have hxy := ih ys
        simp only [lcsLen, lcsAux, if_pos h, List.length_cons]
        omega
      · have h1 := ihb
        have h2 := ih (y :: ys)
        simp only [lcsLen, lcsAux, if_neg h, List.length_cons] at *
        omega

theorem indelRatio_nonneg (a b : List Char) : 0 ≤ indelRatio a b := by
  unfold indelRatio
  split
  · norm_num
  · apply div_nonneg
    · positivity
    · positivity

theorem indelRatio_le_100 (a b : List Char) : indelRatio a b ≤ 100 := by
  unfold indelRatio
  split
  · norm_num
  · rename_i h
    have hlen : 0 < (a.length : ℚ) + (b.length : ℚ) := by
      have : 0 < a.length + b.length := Nat.pos_of_ne_zero h
      exact_mod_cast Nat.cast_pos.mpr this
    rw [div_le_iff₀ hlen]
    have h1 := (lcsLen_le a b).1
    have h2 := (lcsLen_le a b).2
    have : (2 * lcsLen a b : ℚ) ≤ (a.length : ℚ) + (b.length : ℚ) := by
      have : 2 * lcsLen a b ≤ a.length + b.length := by omega
      exact_mod_cast this
    nlinarith

theorem fuzzRatio_range (a b : String) : 0 ≤ fuzzRatio a b ∧ fuzzRatio a b ≤ 100 :=
  ⟨indelRatio_nonneg _ _, indelRatio_le_100 _ _⟩

theorem token_sort_ratio_range (a b : String) :
    0 ≤ token_sort_ratio a b ∧ token_sort_ratio a b ≤ 100 :=
  ⟨indelRatio_nonneg _ _, indelRatio_le_100 _ _⟩

/-! ## Properties of the text normalizer -/

theorem mem_dropWhileChar (p : Char → Bool) (l : List Char) (c : Char)
    (h : c ∈ l.dropWhile p) : c ∈ l := by
  induction l with
  | nil => simp at h
  | cons x xs ih =>
    by_cases hx : p x
    · simp only [List.dropWhile_cons, hx, if_true] at h
      exact List.mem_cons_of_mem _ (ih h)
    · simpa [List.dropWhile_cons, hx] using h

theorem mem_stripL (l : List Char) (c : Char) (h : c ∈ stripL l) : c ∈ l := by
  unfold stripL at h
  rw [List.mem_reverse] at h
  have h2 := mem_dropWhileChar _ _ _ h
  rw [List.mem_reverse] at h2
  exact mem_dropWhileChar _ _ _ h2

theorem collapseAux_mem (l : List Char) : ∀ (b : Bool) (c : Char),
    c ∈ collapseAux b l → c = ' ' ∨ (c ∈ l ∧ isSpaceChar c = false) := by
  induction l with
  | nil => intro b c h; simp [collapseAux] at h
  | cons x xs ih =>
    intro b c h
    by_cases hx : isSpaceChar x
    · cases b with
      | true =>
        simp only [collapseAux, hx, if_true] at h
        rcases ih true c h with h1 | h2
        · exact Or.inl h1
        · exact Or.inr ⟨List.mem_cons_of_mem _ h2.1, h2.2⟩
      | false =>
        simp only [collapseAux, hx, if_true] at h
        rcases List.mem_cons.mp h with h1 | h1
        · exact Or.inl h1
        · rcases ih true c h1 with h2 | h3
          · exact Or.inl h2
          · exact Or.inr ⟨List.mem_cons_of_mem _ h3.1, h3.2⟩
    · simp only [collapseAux, hx, if_false, Bool.false_eq_true] at h
      rcases List.mem_cons.mp h with h1 | h1
      · subst h1
        exact Or.inr ⟨List.mem_cons_self _ _, by simpa using hx⟩
      · rcases ih false c h1 with h2 | h3
        · exact Or.inl h2
        · exact Or.inr ⟨List.mem_cons_of_mem _ h3.1, h3.2⟩

theorem collapseAux_true_head (l : List Char) : ∀ (c : Char) (cs : List Char),
    collapseAux true l = c :: cs → isSpaceChar c = false := by
  induction l with
  | nil => intro c cs h; simp [collapseAux] at h
  | cons x xs ih =>
    intro c cs h
    by_cases hx : isSpaceChar x
    · simp only [collapseAux, hx, if_true] at h
      exact ih c cs h
    · simp only [collapseAux, hx, if_false, Bool.false_eq_true, List.cons.injEq] at h
      rw [← h.1]
      simpa using hx

theorem collapseAux_noDouble (l : List Char) : ∀ b : Bool,
    hasDoubleSpace (collapseAux b l) = false := by
  induction l with
  | nil => intro b; rfl
  | cons x xs ih =>
    intro b
    by_cases hx : isSpaceChar x
    · cases b with
      | true =>
        simp only [collapseAux, hx, if_true]
        exact ih true
      | false =>
        simp only [collapseAux, hx, if_true]
        cases hX : collapseAux true xs with
        | nil => rfl
        | cons c cs =>
          have hc : isSpaceChar c = false := collapseAux_true_head xs c cs hX
          have hb : decide (c = ' ') = false := by
            apply decide_eq_false
            intro hcs
            rw [hcs] at hc
            simp [isSpaceChar] at hc
          have hrest : hasDoubleSpace (c :: cs) = false := by
            rw [← hX]; exact ih true
          simp [hasDoubleSpace, hb, hrest]
    · simp only [collapseAux, hx, if_false, Bool.false_eq_true]
      cases hX : collapseAux false xs with
      | nil => rfl
      | cons c cs =>
        have hrest : hasDoubleSpace (c :: cs) = false := by
          rw [← hX]; exact ih false
        have hb : decide (x = ' ') = false := by
          apply decide_eq_false
          intro hcontra
          rw [hcontra] at hx
          simp [isSpaceChar] at hx
        simp [hasDoubleSpace, hb, hrest]

theorem isAsciiUpper_lowerChar (c : Char) : isAsciiUpper (lowerChar c) = false := by
  unfold lowerChar
  split
  · rename_i h
    have haux : ∀ n : Nat, 65 ≤ n → n ≤ 90 → isAsciiUpper (Char.ofNat (n + 32)) = false := by
      intro n h1 h2
      interval_cases n <;> decide
    exact haux _ h.1 h.2
  · rename_i h
    unfold isAsciiUpper
    exact decide_eq_false h

/-- C8: the Text Normalizer is a total, deterministic function: for every raw
input string the output contains only word characters, single spaces and
periods (all other punctuation removed, whitespace collapsed so that no two
adjacent spaces remain), contains no upper-case letter, and empty input
yields empty output. -/
theorem normalize_text_spec (s : String) :
    (normalize_text s).data.all allowedChar = true
    ∧ (normalize_text s).data.all (fun c => !(isAsciiUpper c)) = true
    ∧ hasDoubleSpace (normalize_text s).data = false
    ∧ normalize_text "" = "" := by
  refine ⟨?_, ?_, ?_, by decide⟩
  · rw [List.all_eq_true]
    intro c hc
    simp only [normalize_text, normalizeTextL] at hc
    rcases collapseAux_mem _ _ _ hc with h1 | h2
    · subst h1; decide
    · rcases List.mem_map.mp h2.1 with ⟨a, _, ha2⟩
      have hns := h2.2
      rw [← ha2] at hns ⊢
      unfold keepOrSpace at hns ⊢
      by_cases hcond : (isWordChar a || isSpaceChar a || a = '.') = true
      · rw [if_pos hcond] at hns ⊢
        unfold allowedChar
        rcases Bool.or_eq_true_iff.mp hcond with h3 | h3
        · rcases Bool.or_eq_true_iff.mp h3 with h4 | h4
          · simp [h4]
          · rw [h4] at hns; simp at hns
        · simp [h3]
      · rw [if_neg hcond] at hns ⊢
        decide
  · rw [List.all_eq_true]
    intro c hc
    simp only [normalize_text, normalizeTextL] at hc
    rcases collapseAux_mem _ _ _ hc with h1 | h2
    · subst h1; decide
    · rcases List.mem_map.mp h2.1 with ⟨a, ha1, ha2⟩
      have halow : isAsciiUpper a = false := by
        rcases List.mem_map.mp (mem_stripL _ _ ha1) with ⟨a0, _, ha0⟩
        rw [← ha0]
        exact isAsciiUpper_lowerChar a0
      rw [← ha2]
      unfold keepOrSpace
      by_cases hcond : (isWordChar a || isSpaceChar a || a = '.') = true
      · rw [if_pos hcond]
        simp [halow]
      · rw [if_neg hcond]
        decide
  · simp only [normalize_text, normalizeTextL]
    exact collapseAux_noDouble _ false

/-! ## Range lemmas for the scorer -/

theorem lcsLen_self (l : List Char) : lcsLen l l = l.length := by
  induction l with
  | nil => rfl
  | cons x xs ih => simp [lcsLen, lcsAux, ih]

theorem indelRatio_self (l : List Char) (h : l ≠ []) : indelRatio l l = 100 := by
  have hlen : l.length ≠ 0 := fun hh => h (List.length_eq_zero.mp hh)
  have hq : (l.length : ℚ) ≠ 0 := Nat.cast_ne_zero.mpr hlen
  unfold indelRatio
  rw [if_neg (by omega), lcsLen_self]
  field_simp
  ring

theorem compare_brands_range (b1 b2 : String) :
    0 ≤ compare_brands b1 b2 ∧ compare_brands b1 b2 ≤ 100 := by
  unfold compare_brands
  dsimp only
  split_ifs
  · exact ⟨by norm_num, by norm_num⟩
  · exact ⟨by norm_num, by norm_num⟩
  · exact ⟨by norm_num, by norm_num⟩
  · exact ⟨by norm_num, by norm_num⟩
  · exact fuzzRatio_range _ _

theorem parseNumber_nonneg (b : Bool) (l : List Char) (v : ℚ) (r : List Char)
    (h : parseNumber b l = some (v, r)) : 0 ≤ v := by
  unfold parseNumber at h
  dsimp only at h
  split at h
  · simp at h
  · split at h
    · split at h
      · split at h
        · simp only [Option.some.injEq, Prod.mk.injEq] at h
          rw [← h.1]
          positivity
        · simp only [Option.some.injEq, Prod.mk.injEq] at h
          rw [← h.1]
          positivity
      · simp only [Option.some.injEq, Prod.mk.injEq] at h
        rw [← h.1]
        positivity
    · simp only [Option.some.injEq, Prod.mk.injEq] at h
      rw [← h.1]
      positivity

theorem matchPattern_nonneg (b : Bool) (alts : List String) (l : List Char)
    (g : ℚ × Option ℚ) (h : matchPattern b alts l = some g) :
    0 ≤ (countSize g).1 ∧ 0 ≤ (countSize g).2 := by
  unfold matchPattern at h
  split at h
  · simp at h
  · rename_i n1 r1 hpn
    dsimp only at h
    split at h
    · rename_i n2 r4 hpn2
      split at h
      · simp only [Option.some.injEq] at h
        rw [← h]
        have h1 := parseNumber_nonneg _ _ _ _ hpn
        have h2 := parseNumber_nonneg _ _ _ _ hpn2
        exact ⟨h1, h2⟩
      · simp at h
    · split at h
      · simp only [Option.some.injEq] at h
        rw [← h]
        have h1 := parseNumber_nonneg _ _ _ _ hpn
        exact ⟨by simp [countSize], h1⟩
      · simp at h

theorem searchPattern_nonneg (b : Bool) (alts : List String) :
    ∀ (l : List Char) (g : ℚ × Option ℚ), searchPattern b alts l = some g →
      0 ≤ (countSize g).1 ∧ 0 ≤ (countSize g).2 := by
  intro l
  induction l with
  | nil => intro g h; exact absurd h (by simp [searchPattern])
  | cons c rest ih =>
    intro g h
    unfold searchPattern at h
    split at h
    · rename_i r hm
      simp only [Option.some.injEq] at h
      rw [← h]
      exact matchPattern_nonneg _ _ _ _ hm
    · exact ih g h

theorem extract_format_nonneg (f n : String) : 0 ≤ (extract_format f n).1 := by
  unfold extract_format
  dsimp only
  split
  · rename_i g hg
    have := searchPattern_nonneg _ _ _ _ hg
    exact mul_nonneg (mul_nonneg this.1 this.2) (by norm_num)
  · split
    · rename_i g hg
      have := searchPattern_nonneg _ _ _ _ hg
      exact mul_nonneg this.1 this.2
    · split
      · rename_i g hg
        have := searchPattern_nonneg _ _ _ _ hg
        exact mul_nonneg (mul_nonneg this.1 this.2) (by norm_num)
      · split
        · rename_i g hg
          have := searchPattern_nonneg _ _ _ _ hg
          exact mul_nonneg this.1 this.2
        · split
          · rename_i g hg
            have := searchPattern_nonneg _ _ _ _ hg
            refine mul_nonneg this.1 ?_
            split_ifs
            · norm_num
            · exact this.2
          · norm_num

theorem compare_formats_range (f1 f2 n1 n2 : String) :
    0 ≤ compare_formats f1 f2 n1 n2 ∧ compare_formats f1 f2 n1 n2 ≤ 100 := by
  have hq1 := extract_format_nonneg f1 n1
  have hq2 := extract_format_nonneg f2 n2
  unfold compare_formats
  dsimp only
  split_ifs with hz hboth hunit
  · exact ⟨by norm_num, by norm_num⟩
  · exact ⟨(fuzzRatio_range _ _).1, (fuzzRatio_range _ _).2⟩
  · constructor
    · apply le_min (by norm_num)
      apply mul_nonneg (le_max_left 0 _) (by norm_num)
    · exact min_le_left _ _
  · constructor
    · exact le_max_left 0 _
    · apply max_le (by norm_num)
      have hd : 0 ≤ |(extract_format f1 n1).1 - (extract_format f2 n2).1| /
          max (extract_format f1 n1).1 (extract_format f2 n2).1 * 100 := by
        apply mul_nonneg _ (by norm_num)
        exact div_nonneg (abs_nonneg _) (le_trans hq1 (le_max_left _ _))
      linarith

/-- C2: for every pair of product descriptors, calculate_similarity returns
brand, product-type, format and packaging sub-scores each in [0,100] and a
weighted total in [0,100]. -/
theorem calculate_similarity_range (p1 p2 : ProdDesc) :
    (0 ≤ (calculate_similarity p1 p2).brand_score ∧ (calculate_similarity p1 p2).brand_score ≤ 100)
    ∧ (0 ≤ (calculate_similarity p1 p2).product_type_score ∧
        (calculate_similarity p1 p2).product_type_score ≤ 100)
    ∧ (0 ≤ (calculate_similarity p1 p2).format_score ∧
        (calculate_similarity p1 p2).format_score ≤ 100)
    ∧ (0 ≤ (calculate_similarity p1 p2).packaging_score ∧
        (calculate_similarity p1 p2).packaging_score ≤ 100)
    ∧ (0 ≤ (calculate_similarity p1 p2).total_score ∧
        (calculate_similarity p1 p2).total_score ≤ 100) := by
  have hB := compare_brands_range p1.brand p2.brand
  have hT : 0 ≤ (if extract_product_type p1.product_name = "" ∧
        extract_product_type p2.product_name = "" then (50 : ℚ)
      else token_sort_ratio (extract_product_type p1.product_name)
        (extract_product_type p2.product_name)) ∧
      (if extract_product_type p1.product_name = "" ∧
        extract_product_type p2.product_name = "" then (50 : ℚ)
      else token_sort_ratio (extract_product_type p1.product_name)
        (extract_product_type p2.product_name)) ≤ 100 := by
    split_ifs
    · exact ⟨by norm_num, by norm_num⟩
    · exact token_sort_ratio_range _ _
  have hF := compare_formats_range p1.format p2.format p1.product_name p2.product_name
  have hP : 0 ≤ (if extract_packaging p1.packaging p1.product_name = "unknown" ∧
        extract_packaging p2.packaging p2.product_name = "unknown" then (50 : ℚ)
      else if extract_packaging p1.packaging p1.product_name =
        extract_packaging p2.packaging p2.product_name then 100
      else fuzzRatio (extract_packaging p1.packaging p1.product_name)
        (extract_packaging p2.packaging p2.product_name)) ∧
      (if extract_packaging p1.packaging p1.product_name = "unknown" ∧
        extract_packaging p2.packaging p2.product_name = "unknown" then (50 : ℚ)
      else if extract_packaging p1.packaging p1.product_name =
        extract_packaging p2.packaging p2.product_name then 100
      else fuzzRatio (extract_packaging p1.packaging p1.product_name)
        (extract_packaging p2.packaging p2.product_name)) ≤ 100 := by
    split_ifs
    · exact ⟨by norm_num, by norm_num⟩
    · exact ⟨by norm_num, by norm_num⟩
    · exact ⟨(fuzzRatio_range _ _).1, (fuzzRatio_range _ _).2⟩
  unfold calculate_similarity
  dsimp only
  refine ⟨hB, hT, hF, hP, ?_, ?_⟩
  · linarith [hB.1, hT.1, hF.1, hP.1]
  · linarith [hB.2, hT.2, hF.2, hP.2]

/-! ## Properties of deduplication and ranking -/

theorem dedupeById_nodup (l : List MatchResult) : ∀ seen : List Nat,
    ((dedupeById seen l).map (fun x => x.product.id)).Nodup
    ∧ ∀ x ∈ dedupeById seen l, x.product.id ∉ seen := by
  induction l with
  | nil => intro seen; simp [dedupeById]
  | cons r rs ih =>
    intro seen
    by_cases hr : r.product.id ∈ seen
    · simpa [dedupeById, hr] using ih seen
    · have ihr := ih (r.product.id :: seen)
      simp only [dedupeById, hr, if_false]
      constructor
      · simp only [List.map_cons, List.nodup_cons]
        constructor
        · intro hmem
          rcases List.mem_map.mp hmem with ⟨y, hy1, hy2⟩
          have := ihr.2 y hy1
          rw [hy2] at this
          exact this (List.mem_cons_self _ _)
        · exact ihr.1
      · intro x hx
        rcases List.mem_cons.mp hx with h1 | h1
        · subst h1; exact hr
        · intro hcontra
          exact (ihr.2 x h1) (List.mem_cons_of_mem _ hcontra)

theorem dedupeById_firstOcc (l : List MatchResult) : ∀ (seen : List Nat)
    (x : MatchResult), x ∈ dedupeById seen l →
    ∃ l₁ l₂, l = l₁ ++ x :: l₂ ∧
      ∀ y ∈ l₁, y.product.id ∈ seen ∨ y.product.id ≠ x.product.id := by
  induction l with
  | nil => intro seen x hx; simp [dedupeById] at hx
  | cons r rs ih =>
    intro seen x hx
    by_cases hr : r.product.id ∈ seen
    · simp only [dedupeById, hr, if_true] at hx
      rcases ih seen x hx with ⟨l₁, l₂, heq, hprev⟩
      refine ⟨r :: l₁, l₂, by rw [heq]; rfl, ?_⟩
      intro y hy
      rcases List.mem_cons.mp hy with h1 | h1
      · subst h1; exact Or.inl hr
      · exact hprev y h1
    · simp only [dedupeById, hr, if_false] at hx
      rcases List.mem_cons.mp hx with h1 | h1
      · subst h1
        exact ⟨[], rs, rfl, by intro y hy; simp at hy⟩
      · rcases ih (r.product.id :: seen) x h1 with ⟨l₁, l₂, heq, hprev⟩
        have hxnot := (dedupeById_nodup rs (r.product.id :: seen)).2 x h1
        refine ⟨r :: l₁, l₂, by rw [heq]; rfl, ?_⟩
        intro y hy
        rcases List.mem_cons.mp hy with h2 | h2
        · subst h2
          right
          intro hcontra
          exact hxnot (by rw [← hcontra]; exact List.mem_cons_self _ _)
        · rcases hprev y h2 with h3 | h3
          · rcases List.mem_cons.mp h3 with h4 | h4
            · right
              intro hcontra
              exact hxnot (by rw [← hcontra, ← h4]; exact List.mem_cons_self _ _)
            · exact Or.inl h4
          · exact Or.inr h3

theorem dedupeById_rep (l1 : List MatchResult) : ∀ (seen : List Nat)
    (l2 : List MatchResult) (x : MatchResult), x ∈ l1 →
    x.product.id ∈ seen ∨
      ∃ y, y ∈ dedupeById seen (l1 ++ l2) ∧ y.product.id = x.product.id ∧ y ∈ l1 := by
  induction l1 with
  | nil => intro seen l2 x hx; simp at hx
  | cons r rs ih =>
    intro seen l2 x hx
    by_cases hr : r.product.id ∈ seen
    · rcases List.mem_cons.mp hx with h1 | h1
      · subst h1; exact Or.inl hr
      · rcases ih seen l2 x h1 with h2 | ⟨y, hy1, hy2, hy3⟩
        · exact Or.inl h2
        · refine Or.inr ⟨y, ?_, hy2, List.mem_cons_of_mem _ hy3⟩
          simpa [dedupeById, hr] using hy1
    · rcases List.mem_cons.mp hx with h1 | h1
      · subst h1
        refine Or.inr ⟨x, ?_, rfl, List.mem_cons_self _ _⟩
        simp [dedupeById, hr]
      · rcases ih (r.product.id :: seen) l2 x h1 with h2 | ⟨y, hy1, hy2, hy3⟩
        · rcases List.mem_cons.mp h2 with h3 | h3
          · refine Or.inr ⟨r, ?_, h3.symm, List.mem_cons_self _ _⟩
            simp [dedupeById, hr]
          · exact Or.inl h3
        · refine Or.inr ⟨y, ?_, hy2, List.mem_cons_of_mem _ hy3⟩
          simp only [dedupeById, hr, if_false, List.cons_append]
          exact List.mem_cons_of_mem _ (by simpa [dedupeById, hr] using hy1)

theorem rankCandidates_props (l : List MatchResult) (max_results : Nat) :
    (((rankCandidates l).take max_results).map (fun x => x.product.id)).Nodup
    ∧ ((rankCandidates l).take max_results).Pairwise
        (fun a b => b.similarity_score ≤ a.similarity_score)
    ∧ ((rankCandidates l).take max_results).length ≤ max_results
    ∧ ∀ x ∈ (rankCandidates l).take max_results, ∃ l₁ l₂,
        l = l₁ ++ x :: l₂ ∧ ∀ y ∈ l₁, y.product.id ≠ x.product.id := by
  have hperm : List.Perm (rankCandidates l) (dedupeById [] l) :=
    List.perm_insertionSort scoreRel (dedupeById [] l)
  refine ⟨?_, ?_, by rw [List.length_take]; exact min_le_left _ _, ?_⟩
  · have hnd : ((dedupeById [] l).map (fun x => x.product.id)).Nodup :=
      (dedupeById_nodup l []).1
    have hnd2 : ((rankCandidates l).map (fun x => x.product.id)).Nodup :=
      ((hperm.map (fun x => x.product.id)).nodup_iff).mpr hnd
    have hsub : List.Sublist (((rankCandidates l).take max_results).map
        (fun x => x.product.id)) ((rankCandidates l).map (fun x => x.product.id)) :=
      (List.take_sublist _ _).map _
    exact hnd2.sublist hsub
  · have hsorted : (rankCandidates l).Pairwise scoreRel :=
      List.sorted_insertionSort scoreRel (dedupeById [] l)
    exact hsorted.sublist (List.take_sublist _ _)
  · intro x hx
    have hx2 : x ∈ rankCandidates l := List.mem_of_mem_take hx
    have hx3 : x ∈ dedupeById [] l := hperm.mem_iff.mp hx2
    rcases dedupeById_firstOcc l [] x hx3 with ⟨l₁, l₂, heq, hprev⟩
    refine ⟨l₁, l₂, heq, ?_⟩
    intro y hy
    rcases hprev y hy with h1 | h1
    · simp at h1
    · exact h1

/-! ## Claim C1: exact resolution short-circuits -/

/-- C1: for every query carrying a source supplier code, if the exact
cross-supplier resolution succeeds then find_matches returns exactly the
one-element list of that candidate, with score 100 and the exact-GTIN match
kind, and the remaining strategies are not run (the repository trace is the
single GTIN lookup: no corrections lookup, no candidate scan, no cache
access). -/
theorem gtin_short_circuit (db : Db) (q : QueryInfo)
    (source_supplier target_supplier : String) (min_similarity : ℚ)
    (max_results : Nat) (code : String) (m : MatchResult)
    (h1 : q.supplier_code = some code)
    (h2 : tryGtinMatch db code source_supplier target_supplier = some m) :
    findMatchesT db q source_supplier target_supplier min_similarity max_results =
      ([m], [RepoOp.gtinLookup])
    ∧ m.similarity_score = 100 ∧ m.match_type = "gtin" := by
  have hm : m.similarity_score = 100 ∧ m.match_type = "gtin" := by
    unfold tryGtinMatch at h2
    split at h2
    · simp at h2
    · split at h2
      · simp at h2
      · simp only [Option.some.injEq] at h2
        rw [← h2]
        exact ⟨rfl, rfl⟩
  refine ⟨?_, hm.1, hm.2⟩
  simp only [findMatchesT, h1, h2]

/-! ## Claim C3: result list invariants of the merged strategies -/

/-- C3: every find_matches call that does not short-circuit on an exact
match returns a list with pairwise distinct product identities, sorted by
score in non-increasing order, of length at most max_results; each returned
candidate is the first occurrence of its product identity in the merged
candidate list (user corrections listed before fuzzy candidates). -/
theorem find_matches_invariants (db : Db) (q : QueryInfo)
    (source_supplier target_supplier : String) (min_similarity : ℚ)
    (max_results : Nat)
    (h : ∀ code, q.supplier_code = some code →
      tryGtinMatch db code source_supplier target_supplier = none) :
    ((find_matches db q source_supplier target_supplier min_similarity
        max_results).map (fun x => x.product.id)).Nodup
    ∧ (find_matches db q source_supplier target_supplier min_similarity
        max_results).Pairwise (fun a b => b.similarity_score ≤ a.similarity_score)
    ∧ (find_matches db q source_supplier target_supplier min_similarity
        max_results).length ≤ max_results
    ∧ ∀ x ∈ find_matches db q source_supplier target_supplier min_similarity
        max_results, ∃ l₁ l₂,
        mergedCandidates db q source_supplier target_supplier min_similarity
          max_results = l₁ ++ x :: l₂ ∧ ∀ y ∈ l₁, y.product.id ≠ x.product.id := by
  have hEq : find_matches db q source_supplier target_supplier min_similarity
      max_results = (rankCandidates (mergedCandidates db q source_supplier
        target_supplier min_similarity max_results)).take max_results := by
    unfold find_matches findMatchesT
    cases hq : q.supplier_code with
    | none => simp
    | some code => simp [h code hq]
  rw [hEq]
  exact rankCandidates_props _ _

/-! ## Claim C9 (amended): corrections are never filtered by the threshold -/

theorem tryUserCorrections_shape (db : Db) (code src tgt : String)
    (c : MatchResult) (hc : c ∈ tryUserCorrections db code src tgt) :
    c.similarity_score = 95 ∧ c.match_type = "user_correction" := by
  unfold tryUserCorrections at hc
  rcases List.mem_filterMap.mp hc with ⟨u, _, hu2⟩
  split at hu2
  · simp at hu2
  · split at hu2
    · simp at hu2
    · simp only [Option.some.injEq] at hu2
      rw [← hu2]
      exact ⟨rfl, rfl⟩

/-- C9 (amended): user-correction candidates carry a fixed score of 95 and
are never removed by the min-similarity threshold: whatever the threshold
(also above 95), the deduplicated, sorted candidate list that find_matches
truncates still contains a user-correction candidate for the corrected
product. Truncation to max_results can still drop them (see the
counterexample). -/
theorem corrections_not_thresholded (db : Db) (q : QueryInfo)
    (source_supplier target_supplier : String) (min_similarity : ℚ)
    (max_results : Nat) (code : String) (c : MatchResult)
    (h1 : q.supplier_code = some code)
    (h2 : tryGtinMatch db code source_supplier target_supplier = none)
    (hc : c ∈ tryUserCorrections db code source_supplier target_supplier) :
    c.similarity_score = 95 ∧ c.match_type = "user_correction"
    ∧ find_matches db q source_supplier target_supplier min_similarity max_results =
        (rankCandidates (mergedCandidates db q source_supplier target_supplier
          min_similarity max_results)).take max_results
    ∧ ∃ y ∈ rankCandidates (mergedCandidates db q source_supplier target_supplier
        min_similarity max_results),
        y.product.id = c.product.id ∧ y.match_type = "user_correction" ∧
        y.similarity_score = 95 := by
  obtain ⟨hs, ht⟩ := tryUserCorrections_shape db code source_supplier target_supplier c hc
  refine ⟨hs, ht, ?_, ?_⟩
  · unfold find_matches findMatchesT
    simp [h1, h2]
  · have hmerge : mergedCandidates db q source_supplier target_supplier
        min_similarity max_results =
        tryUserCorrections db code source_supplier target_supplier ++
        (tryFuzzyMatchT db q target_supplier min_similarity max_results).1 := by
      unfold mergedCandidates
      rw [h1]
    rcases dedupeById_rep (tryUserCorrections db code source_supplier target_supplier)
        [] ((tryFuzzyMatchT db q target_supplier min_similarity max_results).1) c hc
      with hmem | ⟨y, hy1, hy2, hy3⟩
    · simp at hmem
    · obtain ⟨hys, hyt⟩ :=
        tryUserCorrections_shape db code source_supplier target_supplier y hy3
      refine ⟨y, ?_, hy2, hyt, hys⟩
      unfold rankCandidates
      rw [hmerge]
      simpa using hy1

/-! ## Claim C10: cache write on an existing entry is a pure bump -/

theorem cacheUpsert_existing (h text : String) (product_id : Nat) (score : ℚ)
    (method : String) (now : Nat) : ∀ (l₁ : List MatchingCache) (e : MatchingCache)
    (l₂ : List MatchingCache), (∀ x ∈ l₁, x.search_hash ≠ h) → e.search_hash = h →
    cacheUpsert h text product_id score method now (l₁ ++ e :: l₂) =
      l₁ ++ bumpEntry now e :: l₂ := by
  intro l₁
  induction l₁ with
  | nil =>
    intro e l₂ _ hhit
    simp [cacheUpsert, hhit]
  | cons x xs ih =>
    intro e l₂ hprev hhit
    have hx : x.search_hash ≠ h := hprev x (List.mem_cons_self _ _)
    simp only [List.cons_append, cacheUpsert, hx, if_false]
    exact congrArg (fun t => x :: t)
      (ih e l₂ (fun y hy => hprev y (List.mem_cons_of_mem _ hy)) hhit)

/-- C10: when the cache is written for a query whose hash already has an
entry, only that entry's hit count and last-used timestamp change; its
matched product id, similarity score, text, method and creation time are
left unchanged (even when the new result names a different product or
score), and every other table and cache row is untouched. -/
theorem cache_write_frame (db : Db) (text : String) (product_id : Nat) (score : ℚ)
    (method : String) (now : Nat) (l₁ : List MatchingCache) (e : MatchingCache)
    (l₂ : List MatchingCache)
    (hsplit : db.cache = l₁ ++ e :: l₂)
    (hprev : ∀ x ∈ l₁, x.search_hash ≠ searchHash text)
    (hhit : e.search_hash = searchHash text) :
    (cache_match db text product_id score method now).cache =
      l₁ ++ { e with hit_count := e.hit_count + 1, last_used := now } :: l₂
    ∧ (cache_match db text product_id score method now).suppliers = db.suppliers
    ∧ (cache_match db text product_id score method now).products = db.products
    ∧ (cache_match db text product_id score method now).supplier_codes =
        db.supplier_codes
    ∧ (cache_match db text product_id score method now).corrections =
        db.corrections := by
  refine ⟨?_, rfl, rfl, rfl, rfl⟩
  show cacheUpsert (searchHash text) text product_id score method now db.cache = _
  rw [hsplit]
  exact cacheUpsert_existing _ _ _ _ _ _ l₁ e l₂ hprev hhit

/-! ## Claim C6: a stale cache entry is a miss and the scan runs -/

/-- C6: a cache entry whose matched product id no longer resolves to an
existing product is treated as a cache miss and never surfaced: the cache
lookup returns nothing, and the standalone fuzzy search answers with a
fresh candidate scan (the trace records the scan). -/
theorem stale_cache_is_miss (db : Db) (q : ProdDesc) (min_similarity : ℚ)
    (max_results : Nat) (category : Option String) (now : Nat) (e : MatchingCache)
    (h1 : db.cache.find? (fun x => x.search_hash = searchHash (searchText q)) = some e)
    (h2 : db.products.find? (fun p => p.id = e.matched_product_id) = none) :
    get_cached_match db (searchText q) = none
    ∧ (searchSimilarProductsT db q none min_similarity max_results category now).1 =
        fuzzyScan db q none min_similarity max_results category
    ∧ RepoOp.scanProducts ∈
        (searchSimilarProductsT db q none min_similarity max_results category now).2.2 := by
  have hmiss : get_cached_match db (searchText q) = none := by
    unfold get_cached_match
    rw [h1]
    dsimp only
    rw [h2]
    rfl
  refine ⟨hmiss, ?_, ?_⟩
  · unfold searchSimilarProductsT
    simp only [hmiss]
    split
    · rfl
    · split_ifs <;> rfl
  · unfold searchSimilarProductsT
    simp only [hmiss]
    split
    · simp
    · split_ifs <;> simp

/-! ## Claim C4 (amended): cache discipline of the two fuzzy paths -/

/-- C4 (amended): the standalone fuzzy search reads the Result Cache first
on every call (the trace starts with the cache read); with a
target-supplier constraint its result is the pure candidate scan (the cache
contributes nothing); without a constraint a cache hit is answered from the
cache with no scan at all. The orchestrator's fuzzy strategy, by contrast,
performs no cache read: its trace is exactly the candidate scan. -/
theorem fuzzy_cache_discipline (db : Db) (q : ProdDesc)
    (target_supplier : Option String) (min_similarity : ℚ) (max_results : Nat)
    (category : Option String) (now : Nat) (q2 : QueryInfo) (tgt2 : String) :
    (searchSimilarProductsT db q target_supplier min_similarity max_results
        category now).2.2.head? = some RepoOp.cacheRead
    ∧ (∀ t, target_supplier = some t →
        (searchSimilarProductsT db q target_supplier min_similarity max_results
          category now).1 = fuzzyScan db q (some t) min_similarity max_results category)
    ∧ (∀ pr, target_supplier = none →
        get_cached_match db (searchText q) = some pr →
        (searchSimilarProductsT db q target_supplier min_similarity max_results
            category now).2.2 = [RepoOp.cacheRead]
        ∧ (searchSimilarProductsT db q target_supplier min_similarity max_results
            category now).1 =
          [{ product := pr.1, similarity_score := pr.2,
             detailed_scores := calculate_similarity q (descOfProduct pr.1) }])
    ∧ (tryFuzzyMatchT db q2 tgt2 min_similarity max_results).2 =
        [RepoOp.scanProducts] := by
  refine ⟨?_, ?_, ?_, ?_⟩
  · unfold searchSimilarProductsT
    split
    · rfl
    · dsimp only
      split
      · rfl
      · split
        · rfl
        · split_ifs <;> rfl
  · intro t ht
    subst ht
    rfl
  · intro pr htgt hhit
    subst htgt
    obtain ⟨p, sc⟩ := pr
    unfold searchSimilarProductsT
    rw [hhit]
    exact ⟨rfl, rfl⟩
  · unfold tryFuzzyMatchT
    split <;> rfl

/-! ## Claim C5 (amended): the scan path enforces the threshold -/

/-- C5 (amended): on the scan path (any target-supplier constraint, or a
cache miss), every candidate returned by the standalone fuzzy search has
score at least min_similarity: every scanned candidate scoring below the
threshold is discarded. (A cache hit, by contrast, returns the cached score
unchecked - see the counterexample.) -/
theorem fuzzy_scan_thresholded (db : Db) (q : ProdDesc)
    (target_supplier : Option String) (min_similarity : ℚ) (max_results : Nat)
    (category : Option String) (now : Nat) (x : FMatchResult)
    (hpath : (∃ t, target_supplier = some t) ∨
      get_cached_match db (searchText q) = none)
    (hx : x ∈ (searchSimilarProductsT db q target_supplier min_similarity
      max_results category now).1) :
    min_similarity ≤ x.similarity_score := by
  have hres : (searchSimilarProductsT db q target_supplier min_similarity
      max_results category now).1 =
      fuzzyScan db q target_supplier min_similarity max_results category := by
    rcases hpath with ⟨t, ht⟩ | hmiss
    · subst ht; rfl
    · cases target_supplier with
      | some t => rfl
      | none =>
        unfold searchSimilarProductsT
        simp only [hmiss]
        split
        · rfl
        · split_ifs <;> rfl
  rw [hres] at hx
  unfold fuzzyScan at hx
  dsimp only at hx
  have hx2 := List.mem_of_mem_take hx
  rw [List.mem_insertionSort] at hx2
  rcases List.mem_filterMap.mp hx2 with ⟨p, _, hp2⟩
  split at hp2
  · rename_i hge
    simp only [Option.some.injEq] at hp2
    rw [← hp2]
    exact hge
  · simp at hp2

/-! ## Claim C7: scenario B, "4X2 KG" versus "4X2KG" -/

set_option maxRecDepth 4000 in
theorem kgSearch_4x2_spaced : searchPattern true ["kg", "kilo", "kilogram"]
    (normalizeTextL (("4X2 KG" ++ " " ++ "")).data) = some (4, some 2) := by decide

set_option maxRecDepth 4000 in
theorem kgSearch_4x2_tight : searchPattern true ["kg", "kilo", "kilogram"]
    (normalizeTextL (("4X2KG" ++ " " ++ "")).data) = some (4, some 2) := by decide

/-- C7: extracting the format of "4X2 KG" and of "4X2KG" yields magnitude
8000 grams and the kilogram unit class for both inputs, and comparing these
two formats yields a format sub-score of exactly 100 after the
same-unit-class bonus is applied and capped. -/
theorem extract_format_scenario_b :
    extract_format "4X2 KG" "" = (8000, "kg")
    ∧ extract_format "4X2KG" "" = (8000, "kg")
    ∧ compare_formats "4X2 KG" "4X2KG" "" "" = 100 := by
  have h1 : extract_format "4X2 KG" "" = (8000, "kg") := by
    unfold extract_format
    dsimp only
    rw [kgSearch_4x2_spaced]
    dsimp only [countSize]
    with_unfolding_all rfl
  have h2 : extract_format "4X2KG" "" = (8000, "kg") := by
    unfold extract_format
    dsimp only
    rw [kgSearch_4x2_tight]
    dsimp only [countSize]
    with_unfolding_all rfl
  refine ⟨h1, h2, ?_⟩
  unfold compare_formats
  dsimp only
  rw [h1, h2]
  with_unfolding_all decide

/-! ## Concrete witness data

A small concrete database exercising every path: suppliers "s" (source) and
"t" (target), products with identical descriptors so that the similarity
score evaluates to exactly 100. -/

set_option maxRecDepth 4000 in
theorem brand_b_self : compare_brands "b" "b" = 100 := by decide

set_option maxRecDepth 4000 in
theorem type_sig_abc : extract_product_type "abc" = "abc" := by decide

set_option maxRecDepth 4000 in
theorem token_join_abc : List.intercalate [' '] (sortToks (splitWs "abc".data)) =
    "abc".data := by decide

theorem token_sort_abc_self : token_sort_ratio "abc" "abc" = 100 := by
  unfold token_sort_ratio
  rw [token_join_abc]
  exact indelRatio_self _ (by decide)

set_option maxRecDepth 4000 in
theorem kgSearch_2kg_abc : searchPattern true ["kg", "kilo", "kilogram"]
    (normalizeTextL (("2 kg" ++ " " ++ "abc")).data) = some (2, none) := by decide

theorem extract_format_2kg_abc : extract_format "2 kg" "abc" = (2000, "kg") := by
  unfold extract_format
  dsimp only
  rw [kgSearch_2kg_abc]
  dsimp only [countSize]
  with_unfolding_all rfl

theorem compare_formats_2kg_self : compare_formats "2 kg" "2 kg" "abc" "abc" = 100 := by
  unfold compare_formats
  dsimp only
  rw [extract_format_2kg_abc]
  with_unfolding_all decide

set_option maxRecDepth 4000 in
theorem packaging_box_abc : extract_packaging "box" "abc" = "box" := by decide

/-- The similarity of two identical descriptors (name "abc", brand "b",
format "2 kg", packaging "box") is 100 across the board. -/
theorem score_all_hundred :
    calculate_similarity ⟨"abc", "b", "2 kg", "box"⟩ ⟨"abc", "b", "2 kg", "box"⟩ =
      ⟨100, 100, 100, 100, 100⟩ := by
  unfold calculate_similarity
  dsimp only
  rw [brand_b_self, type_sig_abc, compare_formats_2kg_self, packaging_box_abc]
  rw [if_neg (by decide), token_sort_abc_self, if_neg (by decide), if_pos rfl]
  with_unfolding_all rfl

theorem gtin_none_C9 : tryGtinMatch dbC9 "c1" "s" "t" = none := by decide

theorem corrections_C9 : tryUserCorrections dbC9 "c1" "s" "t" = [corrC9] := by decide

theorem fuzzy_C9 : (tryFuzzyMatchT dbC9 qiC9 "t" 96 1).1 = [fz1C9] := by
  have h96 : (96 : ℚ) ≤ 100 := by norm_num
  simp [tryFuzzyMatchT, dbC9, pW, p2C9, qiC9, descOfQuery, descOfProduct,
    get_supplier_code_for_product, score_all_hundred, h96, List.insertionSort,
    List.orderedInsert, scoreRel, fz1C9]

theorem find_matches_C9 : find_matches dbC9 qiC9 "s" "t" 96 1 = [fz1C9] := by
  unfold find_matches findMatchesT
  simp only [show qiC9.supplier_code = some "c1" from rfl, gtin_none_C9]
  unfold rankCandidates mergedCandidates
  simp only [show qiC9.supplier_code = some "c1" from rfl, corrections_C9, fuzzy_C9]
  simp [dedupeById, corrC9, p2C9, fz1C9, pW, List.insertionSort, List.orderedInsert,
    scoreRel, show ¬((100 : ℚ) ≤ 95) from by norm_num]

/-- C9 counterexample: with threshold 96 (a valid threshold above 95) and
max_results 1, the query "c1" has a user-correction candidate, yet the
find_matches result contains only the fuzzy candidate: the correction was
pushed out by truncation, so corrections are not always included in the
result. -/
theorem corrections_dropped_cex :
    qiC9.supplier_code = some "c1"
    ∧ tryGtinMatch dbC9 "c1" "s" "t" = none
    ∧ tryUserCorrections dbC9 "c1" "s" "t" = [corrC9]
    ∧ corrC9.similarity_score = 95
    ∧ corrC9.match_type = "user_correction"
    ∧ find_matches dbC9 qiC9 "s" "t" 96 1 = [fz1C9]
    ∧ fz1C9.match_type = "fuzzy"
    ∧ (95 : ℚ) < 96 :=
  ⟨rfl, gtin_none_C9, corrections_C9, rfl, rfl, find_matches_C9, rfl, by norm_num⟩

theorem corrections_not_thresholded_witness :
    corrC9.similarity_score = 95 ∧ corrC9.match_type = "user_correction"
    ∧ find_matches dbC9 qiC9 "s" "t" 96 1 =
        (rankCandidates (mergedCandidates dbC9 qiC9 "s" "t" 96 1)).take 1
    ∧ ∃ y ∈ rankCandidates (mergedCandidates dbC9 qiC9 "s" "t" 96 1),
        y.product.id = corrC9.product.id ∧ y.match_type = "user_correction" ∧
        y.similarity_score = 95 :=
  corrections_not_thresholded dbC9 qiC9 "s" "t" 96 1 "c1" corrC9 rfl gtin_none_C9
    (by rw [corrections_C9]; exact List.mem_singleton.mpr rfl)

theorem gtin_short_circuit_witness :
    findMatchesT dbC1w qC1w "s" "t" 70 5 = ([mC1w], [RepoOp.gtinLookup])
    ∧ mC1w.similarity_score = 100 ∧ mC1w.match_type = "gtin" :=
  gtin_short_circuit dbC1w qC1w "s" "t" 70 5 "c" mC1w rfl (by decide)

theorem find_matches_invariants_witness :
    ((find_matches dbC1w qC3w "s" "t" 70 5).map (fun x => x.product.id)).Nodup
    ∧ (find_matches dbC1w qC3w "s" "t" 70 5).Pairwise
        (fun a b => b.similarity_score ≤ a.similarity_score)
    ∧ (find_matches dbC1w qC3w "s" "t" 70 5).length ≤ 5
    ∧ ∀ x ∈ find_matches dbC1w qC3w "s" "t" 70 5, ∃ l₁ l₂,
        mergedCandidates dbC1w qC3w "s" "t" 70 5 = l₁ ++ x :: l₂ ∧
        ∀ y ∈ l₁, y.product.id ≠ x.product.id :=
  find_matches_invariants dbC1w qC3w "s" "t" 70 5 (fun code hcode => by
    injection hcode with h
    subst h
    decide)

/-- C4 counterexample: the orchestrator's fuzzy strategy scans the catalog
without any cache read, although the database holds a cache entry for this
very query text: its trace is exactly the scan, refuting the claim that
every fuzzy lookup reads the Result Cache before scanning. -/
theorem orchestrator_no_cache_read_cex :
    (tryFuzzyMatchT dbC4w qi2C4 "t" 50 5).2 = [RepoOp.scanProducts]
    ∧ RepoOp.cacheRead ∉ (tryFuzzyMatchT dbC4w qi2C4 "t" 50 5).2
    ∧ dbC4w.cache ≠ [] := by
  have htr : (tryFuzzyMatchT dbC4w qi2C4 "t" 50 5).2 = [RepoOp.scanProducts] := by
    unfold tryFuzzyMatchT
    split <;> rfl
  exact ⟨htr, by rw [htr]; decide, by decide⟩

theorem fuzzy_cache_discipline_witness :
    (searchSimilarProductsT dbC4w qC4w none 50 5 none 0).2.2.head? =
      some RepoOp.cacheRead
    ∧ (searchSimilarProductsT dbC4w qC4w (some "t") 50 5 none 0).1 =
        fuzzyScan dbC4w qC4w (some "t") 50 5 none
    ∧ (searchSimilarProductsT dbC4w qC4w none 50 5 none 0).2.2 = [RepoOp.cacheRead]
    ∧ (tryFuzzyMatchT dbC4w qi2C4 "t" 50 5).2 = [RepoOp.scanProducts] :=
  ⟨(fuzzy_cache_discipline dbC4w qC4w none 50 5 none 0 qi2C4 "t").1,
   (fuzzy_cache_discipline dbC4w qC4w (some "t") 50 5 none 0 qi2C4 "t").2.1 "t" rfl,
   ((fuzzy_cache_discipline dbC4w qC4w none 50 5 none 0 qi2C4 "t").2.2.1
     (pW, 90) rfl (by decide)).1,
   (fuzzy_cache_discipline dbC4w qC4w none 50 5 none 0 qi2C4 "t").2.2.2⟩

/-- C5 counterexample: with min-similarity 90 and no target-supplier
constraint, a cache hit makes the standalone fuzzy search return the cached
candidate with score 85, below the threshold - so not every candidate of
the returned list reaches min_similarity. -/
theorem cache_hit_below_threshold_cex :
    (searchSimilarProductsT dbC5x qC5x none 90 5 none 0).1 =
      [{ product := pW, similarity_score := 85,
         detailed_scores := calculate_similarity qC5x (descOfProduct pW) }]
    ∧ (85 : ℚ) < 90 := by
  constructor
  · have hhit : get_cached_match dbC5x (searchText qC5x) = some (pW, 85) := by decide
    unfold searchSimilarProductsT
    rw [hhit]
  · norm_num

theorem scan_result_C5w :
    (searchSimilarProductsT dbC5w qC5x (some "t") 60 5 none 0).1 = [xC5w] := by
  show fuzzyScan dbC5w qC5x (some "t") 60 5 none = [xC5w]
  have h60 : (60 : ℚ) ≤ 100 := by norm_num
  simp [fuzzyScan, dbC5w, pW, qC5x, descOfProduct, get_supplier_code_for_product,
    score_all_hundred, h60, List.insertionSort, List.orderedInsert, scoreRelF, xC5w]

theorem fuzzy_scan_thresholded_witness : (60 : ℚ) ≤ xC5w.similarity_score :=
  fuzzy_scan_thresholded dbC5w qC5x (some "t") 60 5 none 0 xC5w (Or.inl ⟨"t", rfl⟩)
    (by rw [scan_result_C5w]; exact List.mem_singleton.mpr rfl)

theorem stale_cache_is_miss_witness :
    get_cached_match dbC6w (searchText qC5x) = none
    ∧ (searchSimilarProductsT dbC6w qC5x none 50 5 none 0).1 =
        fuzzyScan dbC6w qC5x none 50 5 none
    ∧ RepoOp.scanProducts ∈ (searchSimilarProductsT dbC6w qC5x none 50 5 none 0).2.2 :=
  stale_cache_is_miss dbC6w qC5x 50 5 none 0 eC6w (by decide) (by decide)

theorem cache_write_frame_witness :
    (cache_match dbC10w "milk" 99 42 "fuzzy_name" 9).cache =
      [e1C10] ++ { e2C10 with hit_count := e2C10.hit_count + 1, last_used := 9 } :: []
    ∧ (cache_match dbC10w "milk" 99 42 "fuzzy_name" 9).suppliers = dbC10w.suppliers
    ∧ (cache_match dbC10w "milk" 99 42 "fuzzy_name" 9).products = dbC10w.products
    ∧ (cache_match dbC10w "milk" 99 42 "fuzzy_name" 9).supplier_codes =
        dbC10w.supplier_codes
    ∧ (cache_match dbC10w "milk" 99 42 "fuzzy_name" 9).corrections =
        dbC10w.corrections :=
  cache_write_frame dbC10w "milk" 99 42 "fuzzy_name" 9 [e1C10] e2C10 []
    rfl (by decide) (by decide)
